import Mathlib

/-!
Verification of the account-probing engine of `sfp_accounts.py`
(module `sfp_accounts` of the spiderfoot repository).

The Python module is shallowly embedded below:

* Python strings are Lean `String`s; the Python string operations used by
  the module (`in`, `split(sep)[0]`, `split(sep)`, `lower()`, `format` /
  substring replacement) are re-implemented over `List Char` by structural
  recursion so that every definition evaluates inside the kernel.
* The network collaborator `sf.fetchUrl` is a parameter
  `fetch : String → FetchResult`; the cache collaborator is modelled by the
  `Option String` value a `cacheGet` call returns and by the list of
  `cachePut` writes an operation issues.
* The mutation `self.siteResults[retname] = b` performed by `checkSite` is
  embedded by having `checkSite` return the written key/value pair
  (`Except` is used because the Python code can raise `TypeError` when a
  site lacks `account_existence_string`); the queue worker of `checkSites`
  applies those writes to the shared dictionary in order, and the
  state-transformer wrapper `checkSiteST` applies a single write to the
  whole module state.
* Threading is modelled by the worker-count expression of line 176 of the
  source (`range(min(len(sites), self.opts['_maxthreads']))`); the queue
  processing itself is order-independent, so the sequential fold of
  `runQueue` is its observable behaviour.
-/

namespace SfpAccounts

/-! ## Python string primitives, embedded over `List Char` -/

/-- `begMatch p l` is true when `p` is an initial segment of `l`
(the primitive used to embed Python substring search). -/
def begMatch : List Char → List Char → Bool
  | [], _ => true
  | _ :: _, [] => false
  | p :: ps, c :: cs => p == c && begMatch ps cs

/-- `containsSub pat l` embeds Python's `pat in l` substring test. -/
def containsSub (pat : List Char) : List Char → Bool
  | [] => begMatch pat []
  | c :: cs => begMatch pat (c :: cs) || containsSub pat cs

/-- Python `needle in hay` on strings. -/
def pyIn (needle hay : String) : Bool :=
  containsSub needle.toList hay.toList

/-- `takeUntil sep l` is the slice of `l` before the first occurrence of
`sep`: Python `l.split(sep)[0]` for a non-empty separator. -/
def takeUntil (sep : List Char) : List Char → List Char
  | [] => []
  | c :: cs => if begMatch sep (c :: cs) then [] else c :: takeUntil sep cs

/-- Python `s.split(sep)[0]`. -/
def pySplitFirst (sep s : String) : String :=
  String.mk (takeUntil sep.toList s.toList)

/-- Python `s.split(sep)` for a one-character separator. -/
def charSplit (sep : Char) (s : String) : List String :=
  (s.toList.splitOn sep).map String.mk

/-- The newline-joined serialization the cache collaborator gives a list
that is written with `cachePut` (each element on its own line). -/
def joinLines (xs : List String) : String :=
  String.mk (List.intercalate [Char.ofNat 10] (xs.map String.toList))

/-- ASCII lower-casing of one character (what Python `lower()` does on the
ASCII identifiers this module handles). -/
def lowerChar (c : Char) : Char :=
  if 65 ≤ c.toNat ∧ c.toNat ≤ 90 then Char.ofNat (c.toNat + 32) else c

/-- Python `s.lower()`. -/
def pyLower (s : String) : String := String.mk (s.toList.map lowerChar)

/-- Fuel-indexed replacement of every occurrence of `pat` by `repl`
(structural recursion on the fuel so that it kernel-evaluates). -/
def replaceFuel (pat repl : List Char) : Nat → List Char → List Char
  | 0, l => l
  | fuel + 1, l =>
    match l with
    | [] => []
    | c :: cs =>
      if pat ≠ [] ∧ begMatch pat l then
        repl ++ replaceFuel pat repl fuel (l.drop pat.length)
      else c :: replaceFuel pat repl fuel cs

/-- Python `s.replace(pat, repl)` (and `format` for the single placeholder
used by this module) for a non-empty pattern. -/
def pyReplace (s pat repl : String) : String :=
  String.mk (replaceFuel pat.toList repl.toList s.toList.length s.toList)

/-! ## Data model -/

/-- The result dictionary of the `sf.fetchUrl` collaborator: the fields
`checkSite` reads (`content` is `None` on transport failure). -/
structure FetchResult where
  content : Option String
  code : Option String
deriving Repr, DecidableEq

/-- One entry of the WhatsMyName catalog, with the keys the module reads.
`check_uri`, `account_existence_code` and `account_existence_string` are
optional in the feed, hence `Option`. -/
structure Site where
  name : String
  category : String
  valid : Bool
  check_uri : Option String
  account_existence_code : Option String
  account_existence_string : Option String
deriving Repr, DecidableEq

/-- The option dictionary fields the embedded operations read
(`_maxthreads` and `_genericusers` lose their leading underscore). -/
structure Opts where
  ignorenamedict : Bool
  ignoreworddict : Bool
  musthavename : Bool
  userfromemail : Bool
  maxthreads : Nat
  genericusers : String
deriving Repr, DecidableEq

/-- The default options of the module (lines 34-40 of the source;
`_genericusers` defaults from the framework, empty here). -/
def defaultOpts : Opts :=
  { ignorenamedict := true, ignoreworddict := true, musthavename := true,
    userfromemail := true, maxthreads := 50, genericusers := "" }

/-- The exception `checkSite` can raise: `None not in res['content']` is a
Python `TypeError` (site lacking `account_existence_string` whose status
code matched). -/
inductive ProbeErr
  | typeErr
deriving Repr, DecidableEq

/-- Line 105: `site['check_uri'].format(account=name)`. -/
def formatAccount (tmpl name : String) : String :=
  pyReplace tmpl "{account}" name

/-- Line 106: the display label of a probe outcome. -/
def retname (site : Site) (url : String) : String :=
  site.name ++ " (Category: " ++ site.category ++ ")\n<SFURL>" ++ url ++ "</SFURL>"

/-- Lines 101-148, `checkSite`: one probe of `name` against `site`.
`.ok none` embeds the early `return None` of a site without `check_uri`
(no dictionary write); `.ok (some (k, b))` embeds the single write
`self.siteResults[k] = b`; `.error` embeds the raised `TypeError`. -/
def checkSite (opts : Opts) (fetch : String → FetchResult) (name : String)
    (site : Site) : Except ProbeErr (Option (String × Bool)) :=
  match site.check_uri with
  | none => .ok none
  | some tmpl =>
    let url := formatAccount tmpl name
    let ret := retname site url
    let res := fetch url
    match res.content with
    | none => .ok (some (ret, false))
    | some body =>
      if body = "" then .ok (some (ret, false))
      else if res.code ≠ site.account_existence_code then .ok (some (ret, false))
      else
        match site.account_existence_string with
        | none => .error .typeErr
        | some needle =>
          if ¬ pyIn needle body then .ok (some (ret, false))
          else if opts.musthavename ∧ ¬ pyIn (pyLower name) (pyLower body) then
            .ok (some (ret, false))
          else if pyIn "." name ∧
              (pyIn (pySplitFirst "." name ++ "<") body ∨
               pyIn (pySplitFirst "." name ++ "\"") body) then
            .ok (some (ret, false))
          else .ok (some (ret, true))

/-- The label `checkSite` would record `site` under for identifier `name`
(`none` when the site has no `check_uri`). -/
def siteLabel (name : String) (site : Site) : Option String :=
  site.check_uri.map fun tmpl => retname site (formatAccount tmpl name)

/-! ## The shared result dictionary and the scan of `checkSites` -/

/-- Python dictionary assignment `d[k] = v` on an association list that
keeps insertion order: replace the value if the key is present, append
otherwise. -/
def insertResult (m : List (String × Bool)) (k : String) (v : Bool) :
    List (String × Bool) :=
  if m.any (fun p => p.1 == k) then
    m.map fun p => if p.1 == k then (k, v) else p
  else m ++ [(k, v)]

/-- Python `dict` lookup on the association list. -/
def lookupRes (m : List (String × Bool)) (k : String) : Option Bool :=
  (m.find? fun p => p.1 == k).map fun p => p.2

/-- One worker step of `processSiteQueue` (lines 151-160): run `checkSite`
on the next queued site; a raised exception is caught and dropped, a
returned write is applied to the shared dictionary. -/
def queueStep (opts : Opts) (fetch : String → FetchResult) (name : String)
    (m : List (String × Bool)) (site : Site) : List (String × Bool) :=
  match checkSite opts fetch name site with
  | .error _ => m
  | .ok none => m
  | .ok (some (k, v)) => insertResult m k v

/-- The contents of `self.siteResults` after the queue of `sites` has been
drained (lines 162-190; probes are independent and each label is written
by the one worker that pulled its site, so the drained queue is the
sequential fold of the worker step). -/
def runQueue (opts : Opts) (fetch : String → FetchResult) (name : String)
    (sites : List Site) : List (String × Bool) :=
  sites.foldl (queueStep opts fetch name) []

/-- Line 192: `checkSites` returns the labels recorded with a true
outcome. -/
def checkSites (opts : Opts) (fetch : String → FetchResult) (name : String)
    (sites : List Site) : List String :=
  ((runQueue opts fetch name sites).filter fun p => p.2).map fun p => p.1

/-- Lines 176-182: the names of the scan threads started for one queue,
one per index of `range(min(len(sites), self.opts['_maxthreads']))`. -/
def spawnedThreadNames (sites : List Site) (maxthreads : Nat) : List String :=
  (List.range (min sites.length maxthreads)).map
    fun i => "sfp_accounts_scan_" ++ toString i

/-! ## Trust calibration (lines 217-244 of `handleEvent`) -/

/-- Line 235: `site.split(" (Category:")[0]`. -/
def siteNameOfLabel (label : String) : String :=
  pySplitFirst " (Category:" label

/-- The observable effect of the distrust block: the catalog it leaves
behind, the `cachePut` writes it issues and the identifiers it ran a
calibration probe round for. -/
structure DistrustOut where
  sites : List Site
  cachePuts : List (String × String)
  calibScans : List String
deriving Repr, DecidableEq

/-- Lines 229-242: the calibration round run on a cache miss: probe the
random identifier across the whole catalog, distrust every site whose name
is extracted from a found label, cache the distrusted names (the list is
serialized one name per line) or the literal marker `"None"` when nothing
was found. -/
def calibrate (opts : Opts) (fetch : String → FetchResult) (randuser : String)
    (sites : List Site) : DistrustOut :=
  let res := checkSites opts fetch randuser sites
  if res ≠ [] then
    let delsites := res.map siteNameOfLabel
    { sites := sites.filter fun d => ¬ delsites.contains d.name,
      cachePuts := [("sfaccounts_state_v2", joinLines delsites)],
      calibScans := [randuser] }
  else
    { sites := sites,
      cachePuts := [("sfaccounts_state_v2", "None")],
      calibScans := [randuser] }

/-- Lines 218-242: the whole distrust block. `stateCache` is what
`cacheGet("sfaccounts_state_v2", 72)` returned; Python truthiness makes an
absent entry and an empty string both run calibration, the literal
`"None"` marker keeps the catalog whole, and any other content is split
into lines naming the sites to drop. -/
def distrustStep (opts : Opts) (fetch : String → FetchResult)
    (stateCache : Option String) (randuser : String) (sites : List Site) :
    DistrustOut :=
  match stateCache with
  | none => calibrate opts fetch randuser sites
  | some content =>
    if content = "" then calibrate opts fetch randuser sites
    else if content = "None" then
      { sites := sites, cachePuts := [], calibScans := [] }
    else
      let delsites := (charSplit (Char.ofNat 10) content).filter fun l => l ≠ ""
      { sites := sites.filter fun d => ¬ delsites.contains d.name,
        cachePuts := [], calibScans := [] }

/-! ## Module state, `setup` and `handleEvent` -/

/-- The mutable instance attributes of the plugin (lines 51-57;
`siteResults` lives in `ProbeState` below, since it is re-created per
scan). -/
structure ModState where
  results : List String
  reportedUsers : List String
  sites : List Site
  errorState : Bool
  distrustedChecked : Bool
deriving Repr, DecidableEq

/-- An incoming SpiderFootEvent, with the fields `handleEvent` reads. -/
structure Event where
  eventType : String
  module : String
  data : String
deriving Repr, DecidableEq

/-- An event the module emits through `notifyListeners`. -/
structure OutEvent where
  eventType : String
  data : String
deriving Repr, DecidableEq

/-- The collaborators one `handleEvent` call consults: the options, the
fetcher, the cached distrust state, the random calibration identifier, the
domain-keyword extractor (`none` embeds a falsy result) and the two word
dictionaries. -/
structure HEEnv where
  opts : Opts
  fetch : String → FetchResult
  stateCache : Option String
  randuser : String
  domainKeyword : String → Option String
  commonNames : List String
  words : List String

/-- Everything one `handleEvent` call does: the state it leaves, the
events it emits, the cache writes it issues, the identifiers it ran a
calibration round for and the identifiers it ran an account scan for. -/
structure HEOut where
  state : ModState
  emitted : List OutEvent
  cachePuts : List (String × String)
  calibScans : List String
  lookupScans : List String
deriving Repr, DecidableEq

/-- Lines 246-263: the candidate identifiers derived from the event. -/
def deriveUsers (env : HEEnv) (ev : Event) : List String :=
  (if ev.eventType = "HUMAN_NAME" then
    [pyReplace (pyLower ev.data) " " "", pyReplace (pyLower ev.data) " " "."]
  else []) ++
  (if ev.eventType = "DOMAIN_NAME" then
    match env.domainKeyword ev.data with
    | none => []
    | some kw => [kw]
  else []) ++
  (if ev.eventType = "EMAILADDR" then [pyLower (pySplitFirst "@" ev.data)]
  else []) ++
  (if ev.eventType = "USERNAME" then [ev.data] else [])

/-- Line 253: `if not kw` — the keyword is absent or empty. -/
def domainKwFalsy (kw : Option String) : Bool :=
  match kw with
  | none => true
  | some s => s = ""

/-- Lines 265-281: the reporting loop over `set(users)`: skip generic,
dictionary-name and dictionary-word identifiers, emit a `USERNAME` event
for each remaining identifier not yet reported and unequal to the event
data, appending it to `reportedUsers`. -/
def reportUsers (env : HEEnv) (ev : Event) (reported : List String)
    (users : List String) : List String × List OutEvent :=
  users.foldl
    (fun acc user =>
      if (charSplit ',' env.opts.genericusers).contains user then acc
      else if env.opts.ignorenamedict ∧ env.commonNames.contains user then acc
      else if env.opts.ignoreworddict ∧ env.words.contains user then acc
      else if ¬ acc.1.contains user ∧ ev.data ≠ user then
        (acc.1 ++ [user], acc.2 ++ [⟨"USERNAME", user⟩])
      else acc)
    (reported, [])

/-- Lines 194-296, `handleEvent`. The early returns of lines 200-211 leave
the state untouched; the distrust block runs at most once per instance;
the `DOMAIN_NAME` return of line 254 happens after the distrust block; an
account scan runs only for `USERNAME` events, on the Python loop variable
leaked from the reporting loop (the last derived identifier). -/
def handleEvent (env : HEEnv) (st : ModState) (ev : Event) : HEOut :=
  if st.errorState then ⟨st, [], [], [], []⟩
  else if ev.eventType ≠ "USERNAME" ∧ ev.module = "sfp_accounts" then
    ⟨st, [], [], [], []⟩
  else if st.results.contains ev.data then ⟨st, [], [], [], []⟩
  else
    let st1 : ModState := { st with results := st.results ++ [ev.data] }
    let d : DistrustOut :=
      if st1.distrustedChecked then ⟨st1.sites, [], []⟩
      else distrustStep env.opts env.fetch env.stateCache env.randuser st1.sites
    let st2 : ModState := { st1 with sites := d.sites, distrustedChecked := true }
    if ev.eventType = "DOMAIN_NAME" ∧ domainKwFalsy (env.domainKeyword ev.data) then
      ⟨st2, [], d.cachePuts, d.calibScans, []⟩
    else
      let uset := (deriveUsers env ev).eraseDups
      let rep := reportUsers env ev st2.reportedUsers uset
      let st3 : ModState := { st2 with reportedUsers := rep.1 }
      if ev.eventType = "USERNAME" then
        let lastUser := uset.getLastD ""
        let found := checkSites env.opts env.fetch lastUser st3.sites
        ⟨st3, rep.2 ++ found.map fun l => ⟨"ACCOUNT_EXTERNAL_OWNED", l⟩,
          d.cachePuts, d.calibScans, [lastUser]⟩
      else ⟨st3, rep.2, d.cachePuts, d.calibScans, []⟩

/-- The collaborators `setup` consults: the cached catalog feed, the
content a feed fetch would return (`none` on failure) and the JSON parse
of the feed (`json.loads(content)['sites']`; `none` embeds a raised parse
exception). -/
structure SetupEnv where
  cachedFeed : Option String
  fetchedFeed : Option String
  parseFeed : String → Option (List Site)

/-- The feed content line 88 parses: the cached copy if one exists
(line 76 tests `is None`, so even an empty cached string is used),
otherwise the fetched copy. -/
def feedContent (env : SetupEnv) : Option String :=
  match env.cachedFeed with
  | some c => some c
  | none => env.fetchedFeed

/-- Lines 59-93, `setup`: reset the state, load the catalog feed, keep the
entries flagged valid; a failed fetch or parse sets `errorState`. -/
def setup (env : SetupEnv) : ModState :=
  let base : ModState :=
    { results := [], reportedUsers := [], sites := [],
      errorState := false, distrustedChecked := false }
  match feedContent env with
  | none => { base with errorState := true }
  | some content =>
    match env.parseFeed content with
    | none => { base with errorState := true }
    | some raw => { base with sites := raw.filter fun site => site.valid }

/-! ## The probe as a state transformer (for the frame property) -/

/-- The whole mutable state visible to one probe: the shared result
dictionary plus the other instance attributes. -/
structure ProbeState where
  siteResults : List (String × Bool)
  results : List String
  reportedUsers : List String
  sites : List Site
  errorState : Bool
  distrustedChecked : Bool
deriving Repr, DecidableEq

/-- The dictionary update a `checkSite` return value stands for: exactly
the write `self.siteResults[k] = v` when an outcome was produced, nothing
otherwise. -/
def applyOutcome (r : Except ProbeErr (Option (String × Bool)))
    (m : List (String × Bool)) : List (String × Bool) :=
  match r with
  | .ok (some (k, v)) => insertResult m k v
  | _ => m

/-- One `checkSite` call as a transformer of the whole module state: its
only write is the `siteResults` assignment performed under the lock. -/
def checkSiteST (opts : Opts) (fetch : String → FetchResult) (name : String)
    (site : Site) (ps : ProbeState) : ProbeState :=
  { ps with siteResults := applyOutcome (checkSite opts fetch name site) ps.siteResults }

/-! ## The matching algorithm as the specification words it -/

/-- The 6-step match evaluator exactly as §4.2 of the specification states
it (an absent body is a fetch error, which the contract sentence of §4.2
resolves to not-found): written from the specification, to be compared
with `checkSite`. -/
def specMatchEvaluator (musthavename : Bool) (identifier : String)
    (expectedCode : Option String) (expectedSub : String) (res : FetchResult) :
    Bool :=
  match res.content with
  | none => false
  | some body =>
    if body = "" then false
    else if res.code ≠ expectedCode then false
    else if ¬ pyIn expectedSub body then false
    else if musthavename ∧ ¬ pyIn (pyLower identifier) (pyLower body) then false
    else if pyIn "." identifier ∧
        (pyIn (pySplitFirst "." identifier ++ "<") body ∨
         pyIn (pySplitFirst "." identifier ++ "\"") body) then false
    else true

/-- Decidable equality for probe results (used by the concrete-input
checks below). -/
instance instDecEqExceptProbe {ε α : Type} [DecidableEq ε] [DecidableEq α] :
    DecidableEq (Except ε α) := fun x y =>
  match x, y with
  | .error a, .error b => decidable_of_iff (a = b) (by simp)
  | .error _, .ok _ => isFalse fun h => Except.noConfusion h
  | .ok _, .error _ => isFalse fun h => Except.noConfusion h
  | .ok a, .ok b => decidable_of_iff (a = b) (by simp)

/-! ## Concrete fixtures for the closed-form checks -/

/-- A well-formed catalog entry. -/
def exSite : Site :=
  { name := "Ebay", category := "shopping", valid := true,
    check_uri := some "https://ebay.example/{account}",
    account_existence_code := some "200",
    account_existence_string := some "profile" }

/-- A catalog entry without a `check_uri` key. -/
def exSiteNoUri : Site := { exSite with name := "NoUri", check_uri := none }

/-- A catalog entry without an `account_existence_string` key. -/
def exSiteNoStr : Site :=
  { exSite with name := "NoStr", account_existence_string := none }

/-- A fetcher whose response satisfies every check for identifier `bob`. -/
def exFetchFound : String → FetchResult :=
  fun _ => { content := some "profile bob here", code := some "200" }

/-- A fetcher standing for a transport failure. -/
def exFetchErr : String → FetchResult :=
  fun _ => { content := none, code := none }

/-- A response that mentions `bob.abc` verbatim. -/
def exFetchDots : String → FetchResult :=
  fun _ => { content := some "profile bob.abc page", code := some "200" }

/-- A response that also contains the punctuation-stripped `bob<`. -/
def exFetchStrip : String → FetchResult :=
  fun _ => { content := some "profile bob.abc and bob< x", code := some "200" }

/-- An environment for `handleEvent` over a failing fetcher. -/
def exEnv : HEEnv :=
  { opts := defaultOpts, fetch := exFetchErr, stateCache := none,
    randuser := "rnd", domainKeyword := fun _ => none,
    commonNames := [], words := [] }

/-- A module state holding the one-site catalog. -/
def exState : ModState :=
  { results := [], reportedUsers := [], sites := [exSite],
    errorState := false, distrustedChecked := false }

/-- The same state after the distrust block has already run. -/
def exStateChecked : ModState := { exState with distrustedChecked := true }

/-- A module state in the error condition `setup` leaves on failure. -/
def exStateErr : ModState := { exState with errorState := true }

/-- A probe state with a pre-existing entry under another label. -/
def exProbeState : ProbeState :=
  { siteResults := [("other", false)], results := ["seen"],
    reportedUsers := ["bob"], sites := [exSite], errorState := false,
    distrustedChecked := false }

/-- A setup whose feed is neither cached nor fetchable. -/
def exSetupEnvNoFeed : SetupEnv :=
  { cachedFeed := none, fetchedFeed := none, parseFeed := fun _ => none }

/-- A setup whose fetched feed fails to parse. -/
def exSetupEnvBadParse : SetupEnv :=
  { cachedFeed := none, fetchedFeed := some "not json",
    parseFeed := fun _ => none }

/-- The probing environment with a cached empty-marker distrust state. -/
def exEnvCached : HEEnv := { exEnv with stateCache := some "None" }

/-- A `USERNAME` event as the module would receive it. -/
def exEventUser : Event :=
  { eventType := "USERNAME", module := "sfp_names", data := "bob" }

/-- The label separator of line 235. -/
def catSep : String := " (Category:"

/-- A site name is clean when the label separator cannot match anywhere
inside `name` followed by a proper prefix of the separator itself; every
realistic site name (no embedded `" (Category:"` fragment) is clean, and
the property is decidable. -/
def cleanName (n : String) : Prop :=
  containsSub catSep.toList (n.toList ++ catSep.toList.dropLast) = false

/-! ## Lemmas about the embedded string primitives -/

/-- A pattern matches at the front of itself plus anything. -/
theorem begMatch_append_self (p t : List Char) : begMatch p (p ++ t) = true := by
  induction p with
  | nil => rfl
  | cons c cs ih => simp [begMatch, ih]

/-- Front matching is the take-equation. -/
theorem begMatch_iff_take (p : List Char) :
    ∀ l : List Char, begMatch p l = true ↔ l.take p.length = p := by
  induction p with
  | nil => intro l; simp [begMatch]
  | cons c cs ih =>
    intro l
    cases l with
    | nil => simp [begMatch]
    | cons d ds =>
      rw [List.length_cons, List.take_succ_cons]
      show (c == d && begMatch cs ds) = true ↔ _
      rw [Bool.and_eq_true, beq_iff_eq, ih ds]
      constructor
      · rintro ⟨h1, h2⟩
        rw [h1, h2]
      · intro h
        injection h with h1 h2
        exact ⟨h1.symm, h2⟩

/-- A front match anywhere inside the list is a substring match. -/
theorem containsSub_of_drop (pat : List Char) :
    ∀ (i : Nat) (l : List Char), begMatch pat (l.drop i) = true →
      containsSub pat l = true := by
  intro i
  induction i with
  | zero =>
    intro l h
    cases l with
    | nil => simpa [containsSub] using h
    | cons c cs =>
      rw [List.drop_zero] at h
      simp [containsSub, h]
  | succ n ih =>
    intro l h
    cases l with
    | nil => simpa [containsSub] using h
    | cons c cs =>
      rw [List.drop_succ_cons] at h
      simp [containsSub, ih cs h]

/-- Front matching ignores anything past the pattern's length. -/
theorem begMatch_append_right (pat : List Char) :
    ∀ l t : List Char, pat.length ≤ l.length →
      begMatch pat (l ++ t) = begMatch pat l := by
  induction pat with
  | nil => intro l t _; rfl
  | cons p ps ih =>
    intro l t h
    cases l with
    | nil => simp at h
    | cons c cs =>
      show (p == c && begMatch ps (cs ++ t)) = (p == c && begMatch ps cs)
      rw [ih cs t (by simpa using h)]

/-- Inside the name part of `name ++ sep ++ rest`, a separator match is
already a match inside `name ++ sep.dropLast`. -/
theorem begMatch_drop_agree (sep name rest : List Char) (hsep : sep ≠ [])
    (i : Nat) (hi : i < name.length) :
    begMatch sep ((name ++ sep ++ rest).drop i) =
      begMatch sep ((name ++ sep.dropLast).drop i) := by
  have hlast := List.dropLast_append_getLast hsep
  have hs : name ++ sep ++ rest =
      (name ++ sep.dropLast) ++ (sep.getLast hsep :: rest) := by
    conv_lhs => rw [← hlast]
    simp [List.append_assoc]
  have hipre : i ≤ (name ++ sep.dropLast).length := by
    rw [List.length_append]
    omega
  have hseplen : 0 < sep.length := List.length_pos.mpr hsep
  have hdroplen : sep.length ≤ ((name ++ sep.dropLast).drop i).length := by
    rw [List.length_drop, List.length_append, List.length_dropLast]
    omega
  rw [hs, List.drop_append_of_le_length hipre,
    begMatch_append_right sep _ _ hdroplen]

/-- If the separator never front-matches inside the name part, the slice
before its first occurrence in `name ++ sep ++ rest` is exactly `name`. -/
theorem takeUntil_boundary (sep rest : List Char) (hsep : sep ≠ []) :
    ∀ name : List Char,
      (∀ i, i < name.length →
        begMatch sep ((name ++ sep ++ rest).drop i) = false) →
      takeUntil sep (name ++ sep ++ rest) = name := by
  intro name
  induction name with
  | nil =>
    intro _
    simp only [List.nil_append]
    cases sep with
    | nil => exact absurd rfl hsep
    | cons c cs =>
      have hb : begMatch (c :: cs) (c :: (cs ++ rest)) = true := by
        rw [← List.cons_append]
        exact begMatch_append_self (c :: cs) rest
      rw [List.cons_append]
      unfold takeUntil
      rw [if_pos hb]
  | cons d ds ih =>
    intro h
    have h0 : begMatch sep (d :: (ds ++ sep ++ rest)) = false := by
      have hh := h 0 (by simp)
      rw [List.drop_zero] at hh
      exact hh
    have hrec : ∀ i, i < ds.length →
        begMatch sep ((ds ++ sep ++ rest).drop i) = false := by
      intro i hi
      have hh := h (i + 1) (by simpa using Nat.succ_lt_succ hi)
      rw [show (d :: ds) ++ sep ++ rest = d :: (ds ++ sep ++ rest) from rfl,
        List.drop_succ_cons] at hh
      exact hh
    show takeUntil sep (d :: (ds ++ sep ++ rest)) = d :: ds
    unfold takeUntil
    rw [if_neg (by simpa using h0)]
    rw [ih hrec]

/-- The clean-name condition makes the slice before the separator exact. -/
theorem takeUntil_clean (sep name rest : List Char) (hsep : sep ≠ [])
    (hclean : containsSub sep (name ++ sep.dropLast) = false) :
    takeUntil sep (name ++ sep ++ rest) = name := by
  apply takeUntil_boundary sep rest hsep name
  intro i hi
  rw [begMatch_drop_agree sep name rest hsep i hi]
  cases hbm : begMatch sep ((name ++ sep.dropLast).drop i) with
  | false => rfl
  | true =>
    exfalso
    have hcs := containsSub_of_drop sep i _ hbm
    rw [hclean] at hcs
    exact Bool.false_ne_true hcs

/-- Line 235 recovers the site name from the display label of any site
whose name is clean. -/
theorem siteNameOfLabel_retname (site : Site) (url : String)
    (h : cleanName site.name) :
    siteNameOfLabel (retname site url) = site.name := by
  unfold siteNameOfLabel pySplitFirst
  show String.mk (takeUntil catSep.toList ((retname site url).toList)) =
    site.name
  have hstr : (retname site url).toList =
      site.name.toList ++ catSep.toList ++
        (" " ++ site.category ++ ")\n<SFURL>" ++ url ++ "</SFURL>").toList := by
    unfold retname
    have hcat : (" (Category: " : String) = catSep ++ " " := rfl
    rw [hcat]
    simp [String.data_append, List.append_assoc]
  rw [hstr, takeUntil_clean catSep.toList site.name.toList _ (by decide) h]
  rfl

/-! ## Lemmas about the line serialization of the distrust cache -/

/-- Splitting the newline-joined serialization gives the names back,
provided there was at least one name and none contains a newline. -/
theorem charSplit_joinLines (names : List String) (hne : names ≠ [])
    (hnl : ∀ n ∈ names, Char.ofNat 10 ∉ n.toList) :
    charSplit (Char.ofNat 10) (joinLines names) = names := by
  unfold charSplit joinLines
  have hself : (String.mk (List.intercalate [Char.ofNat 10]
      (names.map String.toList))).toList =
      List.intercalate [Char.ofNat 10] (names.map String.toList) := rfl
  rw [hself, List.splitOn_intercalate (names.map String.toList) (Char.ofNat 10)
    (by intro l hl
        rcases List.mem_map.mp hl with ⟨n, hn, rfl⟩
        exact hnl n hn)
    (by simpa using hne)]
  rw [List.map_map]
  have hid : String.mk ∘ String.toList = id := funext fun n => rfl
  rw [hid, List.map_id]

/-- The serialization of a nonempty list of nonempty names is not the
empty string. -/
theorem joinLines_ne_empty (names : List String) (hne : names ≠ [])
    (hnempty : ∀ n ∈ names, n ≠ "") : joinLines names ≠ "" := by
  cases names with
  | nil => exact absurd rfl hne
  | cons a t =>
    intro hcontra
    have hlist : List.intercalate [Char.ofNat 10]
        ((a :: t).map String.toList) = [] := congrArg String.toList hcontra
    cases t with
    | nil =>
      have ha : a.toList = [] := by
        simpa [List.intercalate, List.intersperse] using hlist
      exact hnempty a (by simp) (congrArg String.mk ha)
    | cons b t2 =>
      simp [List.intercalate, List.intersperse] at hlist

/-! ## Lemmas about one probe -/

/-- A probe of a site that has both `check_uri` and
`account_existence_string` records exactly the verdict of the 6-step
evaluator under the site's display label. -/
theorem checkSite_spec (opts : Opts) (fetch : String → FetchResult)
    (name : String) (site : Site) (tmpl needle : String)
    (hu : site.check_uri = some tmpl)
    (hs : site.account_existence_string = some needle) :
    checkSite opts fetch name site =
      .ok (some (retname site (formatAccount tmpl name),
        specMatchEvaluator opts.musthavename name site.account_existence_code
          needle (fetch (formatAccount tmpl name)))) := by
  unfold checkSite specMatchEvaluator
  rw [hu]
  cases hc : (fetch (formatAccount tmpl name)).content with
  | none => simp [hc]
  | some body =>
    simp only [hc, hs]
    split
    · rfl
    · split
      · rfl
      · split
        · rfl
        · split
          · rfl
          · split <;> rfl

/-- A fetch error (absent body) records `false`. -/
theorem checkSite_content_none (opts : Opts) (fetch : String → FetchResult)
    (name : String) (site : Site) (tmpl : String)
    (hu : site.check_uri = some tmpl)
    (hc : (fetch (formatAccount tmpl name)).content = none) :
    checkSite opts fetch name site =
      .ok (some (retname site (formatAccount tmpl name), false)) := by
  unfold checkSite
  rw [hu]
  simp [hc]

/-- An empty body records `false`. -/
theorem checkSite_content_empty (opts : Opts) (fetch : String → FetchResult)
    (name : String) (site : Site) (tmpl : String)
    (hu : site.check_uri = some tmpl)
    (hc : (fetch (formatAccount tmpl name)).content = some "") :
    checkSite opts fetch name site =
      .ok (some (retname site (formatAccount tmpl name), false)) := by
  unfold checkSite
  rw [hu]
  simp [hc]

/-- A status code unequal to `account_existence_code` records `false`. -/
theorem checkSite_code_mismatch (opts : Opts) (fetch : String → FetchResult)
    (name : String) (site : Site) (tmpl body : String)
    (hu : site.check_uri = some tmpl)
    (hc : (fetch (formatAccount tmpl name)).content = some body)
    (hb : body ≠ "")
    (hcode : (fetch (formatAccount tmpl name)).code ≠
      site.account_existence_code) :
    checkSite opts fetch name site =
      .ok (some (retname site (formatAccount tmpl name), false)) := by
  unfold checkSite
  rw [hu]
  simp [hc, hb, hcode]

/-- The only raise: a site lacking `account_existence_string` whose status
code matched (`None not in body` is a Python `TypeError`). -/
theorem checkSite_noStr_raises (opts : Opts) (fetch : String → FetchResult)
    (name : String) (site : Site) (tmpl body : String)
    (hu : site.check_uri = some tmpl)
    (hs : site.account_existence_string = none)
    (hc : (fetch (formatAccount tmpl name)).content = some body)
    (hb : body ≠ "")
    (hcode : (fetch (formatAccount tmpl name)).code =
      site.account_existence_code) :
    checkSite opts fetch name site = .error .typeErr := by
  unfold checkSite
  rw [hu]
  simp [hc, hb, hcode, hs]

/-- Any recorded outcome is filed under the site's label. -/
theorem checkSite_ok_key (opts : Opts) (fetch : String → FetchResult)
    (name : String) (site : Site) (k : String) (v : Bool)
    (h : checkSite opts fetch name site = .ok (some (k, v))) :
    siteLabel name site = some k := by
  cases hu : site.check_uri with
  | none =>
    unfold checkSite at h
    rw [hu] at h
    exact absurd h (by simp)
  | some tmpl =>
    suffices hk : k = retname site (formatAccount tmpl name) by
      subst hk
      simp [siteLabel, hu]
    cases hs : site.account_existence_string with
    | none =>
      cases hc : (fetch (formatAccount tmpl name)).content with
      | none =>
        rw [checkSite_content_none opts fetch name site tmpl hu hc] at h
        simp only [Except.ok.injEq, Option.some.injEq, Prod.mk.injEq] at h
        exact h.1.symm
      | some body =>
        by_cases hb : body = ""
        · subst hb
          rw [checkSite_content_empty opts fetch name site tmpl hu hc] at h
          simp only [Except.ok.injEq, Option.some.injEq, Prod.mk.injEq] at h
          exact h.1.symm
        · by_cases hcode : (fetch (formatAccount tmpl name)).code =
              site.account_existence_code
          · rw [checkSite_noStr_raises opts fetch name site tmpl body hu hs hc hb hcode] at h
            exact absurd h (by simp)
          · rw [checkSite_code_mismatch opts fetch name site tmpl body hu hc hb hcode] at h
            simp only [Except.ok.injEq, Option.some.injEq, Prod.mk.injEq] at h
            exact h.1.symm
    | some needle =>
      rw [checkSite_spec opts fetch name site tmpl needle hu hs] at h
      simp only [Except.ok.injEq, Option.some.injEq, Prod.mk.injEq] at h
      exact h.1.symm

/-- A body that does not contain `account_existence_string` records
`false` (whatever the status code did). -/
theorem checkSite_missing_sub (opts : Opts) (fetch : String → FetchResult)
    (name : String) (site : Site) (tmpl needle body : String)
    (hu : site.check_uri = some tmpl)
    (hs : site.account_existence_string = some needle)
    (hc : (fetch (formatAccount tmpl name)).content = some body)
    (hb : body ≠ "")
    (hneedle : pyIn needle body = false) :
    checkSite opts fetch name site =
      .ok (some (retname site (formatAccount tmpl name), false)) := by
  rw [checkSite_spec opts fetch name site tmpl needle hu hs]
  unfold specMatchEvaluator
  rw [hc]
  by_cases hcode : (fetch (formatAccount tmpl name)).code =
      site.account_existence_code <;>
    simp [hb, hneedle, hcode]

/-! ## Lemmas about the shared result dictionary -/

/-- Dictionary assignment keeps the key set, only adding the written key. -/
theorem keys_insertResult (m : List (String × Bool)) (k : String) (v : Bool) :
    (insertResult m k v).map Prod.fst =
      if m.any (fun p => p.1 == k) then m.map Prod.fst
      else m.map Prod.fst ++ [k] := by
  unfold insertResult
  split
  · rw [List.map_map]
    refine List.map_congr_left ?_
    intro p _
    by_cases hp : p.1 = k
    · simp [Function.comp, hp]
    · simp [Function.comp, hp]
  · simp

/-- Dictionary assignment preserves key uniqueness. -/
theorem nodup_keys_insertResult (m : List (String × Bool)) (k : String)
    (v : Bool) (h : (m.map Prod.fst).Nodup) :
    ((insertResult m k v).map Prod.fst).Nodup := by
  rw [keys_insertResult]
  split
  · exact h
  · rename_i hany
    have hk : k ∉ m.map Prod.fst := by
      intro hmem
      rcases List.mem_map.mp hmem with ⟨p, hp, hpk⟩
      have := List.any_eq_false.mp (Bool.not_eq_true _ |>.mp hany) p hp
      simp [hpk] at this
    simp [List.nodup_append, h, hk]

/-- Replacing the value stored under `k` leaves searches for another key
unchanged. -/
theorem find_update_ne (k : String) (v : Bool) (k' : String) (h : k' ≠ k)
    (m : List (String × Bool)) :
    List.find? (fun p => p.1 == k')
        (m.map fun p => if p.1 == k then (k, v) else p) =
      List.find? (fun p => p.1 == k') m := by
  have hk : (k == k') = false := by
    simp only [beq_eq_false_iff_ne, ne_eq]
    exact fun hkk => h hkk.symm
  induction m with
  | nil => rfl
  | cons p ps ih =>
    rw [List.map_cons]
    by_cases hp : p.1 = k
    · have hhead : (if p.1 == k then (k, v) else p) = (k, v) := by simp [hp]
      rw [hhead, List.find?_cons_of_neg _ (by simp [hk]),
        List.find?_cons_of_neg _ (by simp [hp, hk])]
      exact ih
    · have hhead : (if p.1 == k then (k, v) else p) = p := by simp [hp]
      rw [hhead]
      cases hf : (p.1 == k') with
      | true =>
        rw [List.find?_cons_of_pos _ (by simp [hf]),
          List.find?_cons_of_pos _ (by simp [hf])]
      | false =>
        rw [List.find?_cons_of_neg _ (by simp [hf]),
          List.find?_cons_of_neg _ (by simp [hf])]
        exact ih

/-- Appending an entry for `k` leaves searches for another key
unchanged. -/
theorem find_append_single (k : String) (v : Bool) (k' : String)
    (h : k' ≠ k) (m : List (String × Bool)) :
    List.find? (fun p => p.1 == k') (m ++ [(k, v)]) =
      List.find? (fun p => p.1 == k') m := by
  have hk : (k == k') = false := by
    simp only [beq_eq_false_iff_ne, ne_eq]
    exact fun hkk => h hkk.symm
  induction m with
  | nil => simp [List.find?_cons, hk]
  | cons p ps ih =>
    cases hf : (p.1 == k') with
    | true => simp [List.find?_cons, hf]
    | false => simp [List.find?_cons, hf, ih]

/-- Dictionary reads at other keys are unchanged by an assignment. -/
theorem lookupRes_insertResult_ne (m : List (String × Bool)) (k : String)
    (v : Bool) (k' : String) (h : k' ≠ k) :
    lookupRes (insertResult m k v) k' = lookupRes m k' := by
  unfold insertResult lookupRes
  split
  · rw [find_update_ne k v k' h m]
  · rw [find_append_single k v k' h m]

/-! ## Lemmas about the drained queue -/

/-- One worker step preserves key uniqueness of the shared dictionary. -/
theorem nodup_keys_queueStep (opts : Opts) (fetch : String → FetchResult)
    (name : String) (m : List (String × Bool)) (site : Site)
    (h : (m.map Prod.fst).Nodup) :
    ((queueStep opts fetch name m site).map Prod.fst).Nodup := by
  unfold queueStep
  cases hcs : checkSite opts fetch name site with
  | error e => exact h
  | ok o =>
    cases o with
    | none => exact h
    | some kv => exact nodup_keys_insertResult m kv.1 kv.2 h

/-- The drained queue keeps the keys of the starting dictionary unique. -/
theorem nodup_keys_foldl (opts : Opts) (fetch : String → FetchResult)
    (name : String) (sites : List Site) :
    ∀ acc : List (String × Bool), (acc.map Prod.fst).Nodup →
      ((sites.foldl (queueStep opts fetch name) acc).map Prod.fst).Nodup := by
  induction sites with
  | nil => exact fun acc h => h
  | cons s ss ih =>
    intro acc h
    rw [List.foldl_cons]
    exact ih _ (nodup_keys_queueStep opts fetch name acc s h)

/-- The result dictionary of a whole scan has pairwise distinct keys. -/
theorem nodup_keys_runQueue (opts : Opts) (fetch : String → FetchResult)
    (name : String) (sites : List Site) :
    ((runQueue opts fetch name sites).map Prod.fst).Nodup :=
  nodup_keys_foldl opts fetch name sites [] (by simp)

/-- Every key the drained queue holds either was there already or is the
label of one of the processed sites. -/
theorem keys_foldl_from (opts : Opts) (fetch : String → FetchResult)
    (name : String) (sites : List Site) :
    ∀ (acc : List (String × Bool)) (k : String),
      k ∈ (sites.foldl (queueStep opts fetch name) acc).map Prod.fst →
      k ∈ acc.map Prod.fst ∨ ∃ s ∈ sites, siteLabel name s = some k := by
  induction sites with
  | nil => exact fun acc k h => Or.inl h
  | cons s ss ih =>
    intro acc k h
    rw [List.foldl_cons] at h
    rcases ih _ k h with hacc | ⟨s', hs', hlab⟩
    · unfold queueStep at hacc
      cases hcs : checkSite opts fetch name s with
      | error e =>
        rw [hcs] at hacc
        exact Or.inl hacc
      | ok o =>
        cases o with
        | none =>
          rw [hcs] at hacc
          exact Or.inl hacc
        | some kv =>
          rw [hcs] at hacc
          rw [keys_insertResult] at hacc
          split at hacc
          · exact Or.inl hacc
          · rcases List.mem_append.mp hacc with hin | hnew
            · exact Or.inl hin
            · refine Or.inr ⟨s, List.mem_cons_self s ss, ?_⟩
              rw [List.mem_singleton.mp hnew]
              exact checkSite_ok_key opts fetch name s kv.1 kv.2 (by rw [hcs])
    · exact Or.inr ⟨s', List.mem_cons_of_mem s hs', hlab⟩

/-- Every key of the result dictionary is the label of a scanned site. -/
theorem keys_runQueue_from (opts : Opts) (fetch : String → FetchResult)
    (name : String) (sites : List Site) (k : String)
    (h : k ∈ (runQueue opts fetch name sites).map Prod.fst) :
    ∃ s ∈ sites, siteLabel name s = some k := by
  rcases keys_foldl_from opts fetch name sites [] k h with hnil | hgood
  · simp at hnil
  · exact hgood

/-- Membership in the scan result is exactly a recorded true outcome. -/
theorem mem_checkSites_iff (opts : Opts) (fetch : String → FetchResult)
    (name : String) (sites : List Site) (l : String) :
    l ∈ checkSites opts fetch name sites ↔
      (l, true) ∈ runQueue opts fetch name sites := by
  unfold checkSites
  constructor
  · intro h
    rcases List.mem_map.mp h with ⟨p, hp, hpl⟩
    rcases List.mem_filter.mp hp with ⟨hpm, hptrue⟩
    obtain ⟨a, b⟩ := p
    have ha : a = l := hpl
    have hb : b = true := by simpa using hptrue
    subst ha
    subst hb
    exact hpm
  · intro h
    exact List.mem_map.mpr ⟨(l, true), List.mem_filter.mpr ⟨h, rfl⟩, rfl⟩

/-- The scan result has no duplicate labels. -/
theorem nodup_checkSites (opts : Opts) (fetch : String → FetchResult)
    (name : String) (sites : List Site) :
    (checkSites opts fetch name sites).Nodup := by
  unfold checkSites
  refine List.Nodup.sublist ?_ (nodup_keys_runQueue opts fetch name sites)
  exact List.Sublist.map Prod.fst
    (List.filter_sublist (runQueue opts fetch name sites))

/-- Sites without a `check_uri` key contribute nothing to the drained
queue: only the sites that have one matter. -/
theorem foldl_skip_no_uri (opts : Opts) (fetch : String → FetchResult)
    (name : String) (sites : List Site) :
    ∀ acc : List (String × Bool),
      sites.foldl (queueStep opts fetch name) acc =
        (sites.filter fun s => s.check_uri.isSome).foldl
          (queueStep opts fetch name) acc := by
  induction sites with
  | nil => exact fun acc => rfl
  | cons s ss ih =>
    intro acc
    cases hu : s.check_uri with
    | none =>
      have hstep : queueStep opts fetch name acc s = acc := by
        unfold queueStep checkSite
        rw [hu]
      have hfilter : (s :: ss).filter (fun s => s.check_uri.isSome) =
          ss.filter fun s => s.check_uri.isSome := by
        rw [List.filter_cons_of_neg (by simp [hu])]
      rw [List.foldl_cons, hstep, hfilter]
      exact ih acc
    | some tmpl =>
      have hfilter : (s :: ss).filter (fun s => s.check_uri.isSome) =
          s :: ss.filter fun s => s.check_uri.isSome := by
        rw [List.filter_cons_of_pos (by simp [hu])]
      rw [List.foldl_cons, hfilter, List.foldl_cons]
      exact ih _

/-- A site whose probe raises contributes nothing to the drained queue
and does not stop the sites after it from being processed. -/
theorem foldl_error_skip (opts : Opts) (fetch : String → FetchResult)
    (name : String) (bad : Site) (e : ProbeErr)
    (herr : checkSite opts fetch name bad = .error e)
    (pre post : List Site) :
    ∀ acc : List (String × Bool),
      (pre ++ bad :: post).foldl (queueStep opts fetch name) acc =
        (pre ++ post).foldl (queueStep opts fetch name) acc := by
  intro acc
  have hstep : ∀ m, queueStep opts fetch name m bad = m := by
    intro m
    unfold queueStep
    rw [herr]
  rw [List.foldl_append, List.foldl_append, List.foldl_cons,
    hstep (pre.foldl (queueStep opts fetch name) acc)]

/-! ## Lemmas about the distrust block and `handleEvent` -/

/-- A truthy cached distrust state never triggers a calibration round. -/
theorem distrustStep_cached_no_calib (opts : Opts)
    (fetch : String → FetchResult) (c r : String) (sites : List Site)
    (hc : c ≠ "") :
    (distrustStep opts fetch (some c) r sites).calibScans = [] := by
  simp only [distrustStep]
  rw [if_neg (by simp [hc])]
  split <;> rfl

/-- With the distrust block already done, no calibration round runs. -/
theorem handleEvent_calib_of_checked (env : HEEnv) (st : ModState)
    (ev : Event) (h : st.distrustedChecked = true) :
    (handleEvent env st ev).calibScans = [] := by
  unfold handleEvent
  split
  · rfl
  · split
    · rfl
    · split
      · rfl
      · simp only [h, if_true]
        split
        · rfl
        · split <;> rfl

/-- Either no calibration round ran, or the block had not run before, its
scans are those of `distrustStep` on the current catalog, and the state
records the block as done. -/
theorem handleEvent_calib_master (env : HEEnv) (st : ModState) (ev : Event) :
    (handleEvent env st ev).calibScans = [] ∨
    (st.distrustedChecked = false ∧
      (handleEvent env st ev).calibScans =
        (distrustStep env.opts env.fetch env.stateCache env.randuser
          st.sites).calibScans ∧
      (handleEvent env st ev).state.distrustedChecked = true) := by
  cases hdc : st.distrustedChecked with
  | true => exact Or.inl (handleEvent_calib_of_checked env st ev hdc)
  | false =>
    unfold handleEvent
    split
    · exact Or.inl rfl
    · split
      · exact Or.inl rfl
      · split
        · exact Or.inl rfl
        · right
          refine ⟨rfl, ?_, ?_⟩ <;> simp only [hdc, Bool.false_eq_true, if_false] <;>
            split <;> first | rfl | (split <;> rfl)

/-- A probe that records a found outcome cannot have had the
punctuation-stripped first name (followed by `<` or `"`) in its body. -/
theorem checkSite_true_no_punct (opts : Opts) (fetch : String → FetchResult)
    (name : String) (site : Site) (k tmpl body : String)
    (hu : site.check_uri = some tmpl)
    (hc : (fetch (formatAccount tmpl name)).content = some body)
    (h : checkSite opts fetch name site = .ok (some (k, true))) :
    ¬ (pyIn "." name = true ∧
       (pyIn (pySplitFirst "." name ++ "<") body = true ∨
        pyIn (pySplitFirst "." name ++ "\"") body = true)) := by
  rintro ⟨hdot, hsub⟩
  cases hs : site.account_existence_string with
  | none =>
    by_cases hb : body = ""
    · subst hb
      rw [checkSite_content_empty opts fetch name site tmpl hu hc] at h
      simp at h
    · by_cases hcode : (fetch (formatAccount tmpl name)).code =
          site.account_existence_code
      · rw [checkSite_noStr_raises opts fetch name site tmpl body hu hs hc hb
          hcode] at h
        simp at h
      · rw [checkSite_code_mismatch opts fetch name site tmpl body hu hc hb
          hcode] at h
        simp at h
  | some needle =>
    rw [checkSite_spec opts fetch name site tmpl needle hu hs] at h
    simp only [Except.ok.injEq, Option.some.injEq, Prod.mk.injEq] at h
    have hval := h.2
    simp only [specMatchEvaluator, hc] at hval
    split_ifs at hval with h1 h2 h3 h4 h5
    exact h5 ⟨hdot, hsub⟩

/-! ## The claims -/

/-- C1: for every identifier and every site definition that has a
`check_uri` (and the `account_existence_string` the fourth check reads),
the probe records under the site's label exactly the verdict of the
specification's 6-step short-circuiting match evaluator: fetch of the
substituted URL, empty body, status-code mismatch, missing expected
substring, must-mention-identifier policy, punctuation rule, otherwise
found. -/
theorem C1_match_algorithm (opts : Opts) (fetch : String → FetchResult)
    (name : String) (site : Site) (tmpl needle : String)
    (hu : site.check_uri = some tmpl)
    (hs : site.account_existence_string = some needle) :
    checkSite opts fetch name site =
      .ok (some (retname site (formatAccount tmpl name),
        specMatchEvaluator opts.musthavename name site.account_existence_code
          needle (fetch (formatAccount tmpl name)))) :=
  checkSite_spec opts fetch name site tmpl needle hu hs

/-- Witness for C1 at a concrete site, identifier and response. -/
theorem C1_match_algorithm_witness :
    exSite.check_uri = some "https://ebay.example/{account}" ∧
    exSite.account_existence_string = some "profile" ∧
    checkSite defaultOpts exFetchFound "bob" exSite =
      .ok (some (retname exSite
          (formatAccount "https://ebay.example/{account}" "bob"),
        specMatchEvaluator defaultOpts.musthavename "bob"
          exSite.account_existence_code "profile"
          (exFetchFound
            (formatAccount "https://ebay.example/{account}" "bob")))) :=
  ⟨rfl, rfl, C1_match_algorithm defaultOpts exFetchFound "bob" exSite
    "https://ebay.example/{account}" "profile" rfl rfl⟩

/-- C3: for every identifier and site with a `check_uri`, each ordinary
failure — a fetch error (absent body), an empty body, a status code
unequal to the expected one, or a missing expected substring — makes the
probe record `found = false` instead of raising, and a probe that does
raise is caught by the worker, so it neither contributes an outcome nor
stops the rest of the scan. -/
theorem C3_ordinary_failures_never_raise (opts : Opts)
    (fetch : String → FetchResult) (name : String) (site : Site)
    (tmpl : String) (hu : site.check_uri = some tmpl) :
    ((fetch (formatAccount tmpl name)).content = none →
      checkSite opts fetch name site =
        .ok (some (retname site (formatAccount tmpl name), false))) ∧
    ((fetch (formatAccount tmpl name)).content = some "" →
      checkSite opts fetch name site =
        .ok (some (retname site (formatAccount tmpl name), false))) ∧
    (∀ body, (fetch (formatAccount tmpl name)).content = some body →
      body ≠ "" →
      (fetch (formatAccount tmpl name)).code ≠ site.account_existence_code →
      checkSite opts fetch name site =
        .ok (some (retname site (formatAccount tmpl name), false))) ∧
    (∀ needle body, site.account_existence_string = some needle →
      (fetch (formatAccount tmpl name)).content = some body → body ≠ "" →
      pyIn needle body = false →
      checkSite opts fetch name site =
        .ok (some (retname site (formatAccount tmpl name), false))) ∧
    (∀ (bad : Site) (e : ProbeErr) (pre post : List Site),
      checkSite opts fetch name bad = .error e →
      checkSites opts fetch name (pre ++ bad :: post) =
        checkSites opts fetch name (pre ++ post)) := by
  refine ⟨?_, ?_, ?_, ?_, ?_⟩
  · exact fun hc => checkSite_content_none opts fetch name site tmpl hu hc
  · exact fun hc => checkSite_content_empty opts fetch name site tmpl hu hc
  · exact fun body hc hb hcode =>
      checkSite_code_mismatch opts fetch name site tmpl body hu hc hb hcode
  · exact fun needle body hs hc hb hn =>
      checkSite_missing_sub opts fetch name site tmpl needle body hu hs hc hb hn
  · intro bad e pre post herr
    unfold checkSites runQueue
    rw [foldl_error_skip opts fetch name bad e herr pre post []]

/-- Witness for C3: a transport failure at a concrete site records a
not-found outcome. -/
theorem C3_ordinary_failures_never_raise_witness :
    exSite.check_uri = some "https://ebay.example/{account}" ∧
    (exFetchErr
      (formatAccount "https://ebay.example/{account}" "bob")).content = none ∧
    checkSite defaultOpts exFetchErr "bob" exSite =
      .ok (some (retname exSite
        (formatAccount "https://ebay.example/{account}" "bob"), false)) :=
  ⟨rfl, rfl,
    (C3_ordinary_failures_never_raise defaultOpts exFetchErr "bob" exSite
      "https://ebay.example/{account}" rfl).1 rfl⟩

/-- C4: for every identifier containing `.`, whenever a probe records an
outcome and the response body contains the part before the first `.`
immediately followed by `<` or by `"`, the recorded outcome is not-found;
concretely, `bob.abc` against a body containing `bob<` resolves to
not-found while `bob.abc` against a body containing `bob.abc` verbatim
(passing the other checks) resolves to found. -/
theorem C4_punctuation_rule (opts : Opts) (fetch : String → FetchResult)
    (name : String) (site : Site) (tmpl body k : String) (v : Bool)
    (hu : site.check_uri = some tmpl)
    (hc : (fetch (formatAccount tmpl name)).content = some body)
    (hdot : pyIn "." name = true)
    (hsub : pyIn (pySplitFirst "." name ++ "<") body = true ∨
            pyIn (pySplitFirst "." name ++ "\"") body = true)
    (hout : checkSite opts fetch name site = .ok (some (k, v))) :
    v = false ∧
    checkSite defaultOpts exFetchStrip "bob.abc" exSite =
      .ok (some (retname exSite "https://ebay.example/bob.abc", false)) ∧
    checkSite defaultOpts exFetchDots "bob.abc" exSite =
      .ok (some (retname exSite "https://ebay.example/bob.abc", true)) := by
  refine ⟨?_, by decide, by decide⟩
  cases v with
  | false => rfl
  | true =>
    exact absurd ⟨hdot, hsub⟩
      (checkSite_true_no_punct opts fetch name site k tmpl body hu hc hout)

/-- Witness for C4 at the concrete punctuation-stripping response. -/
theorem C4_punctuation_rule_witness :
    exSite.check_uri = some "https://ebay.example/{account}" ∧
    (exFetchStrip (formatAccount "https://ebay.example/{account}" "bob.abc")
      ).content = some "profile bob.abc and bob< x" ∧
    pyIn "." "bob.abc" = true ∧
    pyIn (pySplitFirst "." "bob.abc" ++ "<")
      "profile bob.abc and bob< x" = true ∧
    checkSite defaultOpts exFetchStrip "bob.abc" exSite =
      .ok (some (retname exSite "https://ebay.example/bob.abc", false)) ∧
    (false : Bool) = false :=
  ⟨rfl, rfl, by decide, by decide, by decide,
    (C4_punctuation_rule defaultOpts exFetchStrip "bob.abc" exSite
      "https://ebay.example/{account}" "profile bob.abc and bob< x"
      (retname exSite "https://ebay.example/bob.abc") false rfl rfl
      (by decide) (Or.inl (by decide)) (by decide)).1⟩

/-- C5: a scan returns exactly the labels whose recorded outcome is
`found = true`; every returned label is the label of one of the given
sites, and no label is returned twice. -/
theorem C5_scan_returns_found_labels (opts : Opts)
    (fetch : String → FetchResult) (name : String) (sites : List Site) :
    (∀ l, l ∈ checkSites opts fetch name sites ↔
      (l, true) ∈ runQueue opts fetch name sites) ∧
    (∀ l ∈ checkSites opts fetch name sites,
      ∃ s ∈ sites, siteLabel name s = some l) ∧
    (checkSites opts fetch name sites).Nodup := by
  refine ⟨mem_checkSites_iff opts fetch name sites, ?_,
    nodup_checkSites opts fetch name sites⟩
  intro l hl
  exact keys_runQueue_from opts fetch name sites l
    (List.mem_map.mpr
      ⟨(l, true), (mem_checkSites_iff opts fetch name sites l).mp hl, rfl⟩)

/-- Witness for C5 on a concrete one-site catalog. -/
theorem C5_scan_returns_found_labels_witness :
    ("Ebay (Category: shopping)\n<SFURL>https://ebay.example/bob</SFURL>" ∈
      checkSites defaultOpts exFetchFound "bob" [exSite]) ∧
    (checkSites defaultOpts exFetchFound "bob" [exSite]).Nodup :=
  ⟨((C5_scan_returns_found_labels defaultOpts exFetchFound "bob"
      [exSite]).1 _).mpr (by decide),
    (C5_scan_returns_found_labels defaultOpts exFetchFound "bob"
      [exSite]).2.2⟩

/-- C6: the probe engine starts exactly `min(len(sites), _maxthreads)`
worker threads; in particular 50 queued sites with `_maxthreads = 5`
start exactly 5 workers, so never more than 5 probes run at once. -/
theorem C6_worker_count (sites : List Site) (maxthreads : Nat) :
    (spawnedThreadNames sites maxthreads).length =
      min sites.length maxthreads ∧
    (sites.length = 50 → (spawnedThreadNames sites 5).length = 5) := by
  constructor
  · unfold spawnedThreadNames
    rw [List.length_map, List.length_range]
  · intro h
    unfold spawnedThreadNames
    rw [List.length_map, List.length_range, h]
    decide

/-- Witness for C6 with 50 queued sites and a thread cap of 5. -/
theorem C6_worker_count_witness :
    (List.replicate 50 exSite).length = 50 ∧
    (spawnedThreadNames (List.replicate 50 exSite) 5).length = 5 :=
  ⟨by simp, (C6_worker_count (List.replicate 50 exSite) 5).2 (by simp)⟩

/-- C10: a site without a `check_uri` key makes the probe return
immediately: no outcome is recorded for it (so its fetch result is never
consulted), the drained queue is the one of the catalog restricted to
sites that have a `check_uri`, and every scanned label comes from a site
that has one. -/
theorem C10_no_check_uri_skipped (opts : Opts) (fetch : String → FetchResult)
    (name : String) (site : Site) (sites : List Site)
    (hu : site.check_uri = none) :
    checkSite opts fetch name site = .ok none ∧
    (∀ f g : String → FetchResult,
      checkSite opts f name site = checkSite opts g name site) ∧
    runQueue opts fetch name sites =
      runQueue opts fetch name (sites.filter fun s => s.check_uri.isSome) ∧
    (∀ l ∈ checkSites opts fetch name sites,
      ∃ s ∈ sites, s.check_uri ≠ none ∧ siteLabel name s = some l) := by
  refine ⟨?_, ?_, ?_, ?_⟩
  · unfold checkSite
    rw [hu]
  · intro f g
    unfold checkSite
    rw [hu]
  · exact foldl_skip_no_uri opts fetch name sites []
  · intro l hl
    rcases keys_runQueue_from opts fetch name sites l
        (List.mem_map.mpr
          ⟨(l, true), (mem_checkSites_iff opts fetch name sites l).mp hl,
            rfl⟩) with ⟨s, hsmem, hlab⟩
    refine ⟨s, hsmem, ?_, hlab⟩
    intro hnone
    unfold siteLabel at hlab
    rw [hnone] at hlab
    exact Option.noConfusion hlab

/-- Witness for C10 at a concrete site without a `check_uri`. -/
theorem C10_no_check_uri_skipped_witness :
    exSiteNoUri.check_uri = none ∧
    checkSite defaultOpts exFetchFound "bob" exSiteNoUri = .ok none ∧
    runQueue defaultOpts exFetchFound "bob" [exSiteNoUri] =
      runQueue defaultOpts exFetchFound "bob"
        ([exSiteNoUri].filter fun s => s.check_uri.isSome) :=
  ⟨rfl,
    (C10_no_check_uri_skipped defaultOpts exFetchFound "bob" exSiteNoUri
      [exSiteNoUri] rfl).1,
    (C10_no_check_uri_skipped defaultOpts exFetchFound "bob" exSiteNoUri
      [exSiteNoUri] rfl).2.2.1⟩

/-- C8: a probe, run as a transformer of the whole module state, changes
nothing but the result-dictionary entry determined by its returned
outcome: every other instance attribute and every other dictionary key is
untouched. -/
theorem C8_probe_frame (opts : Opts) (fetch : String → FetchResult)
    (name : String) (site : Site) (ps : ProbeState) :
    (checkSiteST opts fetch name site ps).results = ps.results ∧
    (checkSiteST opts fetch name site ps).reportedUsers = ps.reportedUsers ∧
    (checkSiteST opts fetch name site ps).sites = ps.sites ∧
    (checkSiteST opts fetch name site ps).errorState = ps.errorState ∧
    (checkSiteST opts fetch name site ps).distrustedChecked =
      ps.distrustedChecked ∧
    (checkSiteST opts fetch name site ps).siteResults =
      applyOutcome (checkSite opts fetch name site) ps.siteResults ∧
    (∀ k v k', checkSite opts fetch name site = .ok (some (k, v)) →
      k' ≠ k →
      lookupRes (checkSiteST opts fetch name site ps).siteResults k' =
        lookupRes ps.siteResults k') := by
  refine ⟨rfl, rfl, rfl, rfl, rfl, rfl, ?_⟩
  intro k v k' hcs hne
  show lookupRes (applyOutcome (checkSite opts fetch name site)
    ps.siteResults) k' = lookupRes ps.siteResults k'
  unfold applyOutcome
  rw [hcs]
  exact lookupRes_insertResult_ne ps.siteResults k v k' hne

/-- Witness for C8: a concrete probe leaves the entry under another label
unchanged. -/
theorem C8_probe_frame_witness :
    checkSite defaultOpts exFetchFound "bob" exSite =
      .ok (some
        ("Ebay (Category: shopping)\n<SFURL>https://ebay.example/bob</SFURL>",
          true)) ∧
    ("other" : String) ≠
      "Ebay (Category: shopping)\n<SFURL>https://ebay.example/bob</SFURL>" ∧
    lookupRes (checkSiteST defaultOpts exFetchFound "bob" exSite
      exProbeState).siteResults "other" =
      lookupRes exProbeState.siteResults "other" :=
  ⟨by decide, by decide,
    (C8_probe_frame defaultOpts exFetchFound "bob" exSite exProbeState).2.2.2.2.2.2
      "Ebay (Category: shopping)\n<SFURL>https://ebay.example/bob</SFURL>"
      true "other" (by decide) (by decide)⟩

/-- C2: the distrust cache distinguishes three states — absent (runs a
calibration round), the explicit `"None"` marker (removes nothing), and a
non-empty name list (removes exactly the named sites) — and calibration
writes back exactly the found site names, or the explicit marker when
nothing was found. -/
theorem C2_distrust_cache_three_states (opts : Opts)
    (fetch : String → FetchResult) (r : String) (sites : List Site) :
    (distrustStep opts fetch none r sites).calibScans = [r] ∧
    distrustStep opts fetch (some "None") r sites = ⟨sites, [], []⟩ ∧
    (∀ names : List String, names ≠ [] →
      (∀ n ∈ names, n ≠ "" ∧ Char.ofNat 10 ∉ n.toList) →
      joinLines names ≠ "None" →
      distrustStep opts fetch (some (joinLines names)) r sites =
        ⟨sites.filter fun d => ¬ names.contains d.name, [], []⟩) ∧
    (checkSites opts fetch r sites ≠ [] →
      (distrustStep opts fetch none r sites).cachePuts =
        [("sfaccounts_state_v2",
          joinLines ((checkSites opts fetch r sites).map siteNameOfLabel))] ∧
      (∀ l ∈ checkSites opts fetch r sites, (∀ s ∈ sites, cleanName s.name) →
        ∃ s ∈ sites, siteLabel r s = some l ∧ siteNameOfLabel l = s.name)) ∧
    (checkSites opts fetch r sites = [] →
      (distrustStep opts fetch none r sites).cachePuts =
        [("sfaccounts_state_v2", "None")]) := by
  refine ⟨?_, ?_, ?_, ?_, ?_⟩
  · simp only [distrustStep, calibrate]
    split <;> rfl
  · simp only [distrustStep]
    rw [if_neg (by decide)]
    simp
  · intro names hne hclean hnn
    have hsplit := charSplit_joinLines names hne fun n hn => (hclean n hn).2
    have hempty := joinLines_ne_empty names hne fun n hn => (hclean n hn).1
    have hfil : names.filter (fun l => l ≠ "") = names := by
      rw [List.filter_eq_self]
      intro a ha
      simpa using (hclean a ha).1
    simp only [distrustStep]
    rw [if_neg hempty, if_neg hnn]
    simp only [hsplit, hfil]
  · intro hL
    constructor
    · simp only [distrustStep, calibrate]
      rw [if_pos hL]
    · intro l hl hcleanall
      rcases keys_runQueue_from opts fetch r sites l
          (List.mem_map.mpr
            ⟨(l, true), (mem_checkSites_iff opts fetch r sites l).mp hl,
              rfl⟩) with ⟨s, hs, hlab⟩
      refine ⟨s, hs, hlab, ?_⟩
      unfold siteLabel at hlab
      cases hcu : s.check_uri with
      | none =>
        rw [hcu] at hlab
        exact absurd hlab (by simp)
      | some tmpl =>
        rw [hcu] at hlab
        have hl2 : some (retname s (formatAccount tmpl r)) = some l := hlab
        injection hl2 with hl3
        rw [← hl3]
        exact siteNameOfLabel_retname s (formatAccount tmpl r)
          (hcleanall s hs)
  · intro hL
    simp only [distrustStep, calibrate]
    rw [if_neg (by simp [hL])]

/-- Witness for C2, reading back a cached one-name distrust list. -/
theorem C2_distrust_cache_three_states_witness :
    (["Ebay"] : List String) ≠ [] ∧
    joinLines ["Ebay"] ≠ "None" ∧
    distrustStep defaultOpts exFetchErr (some (joinLines ["Ebay"])) "rnd"
        [exSite] =
      ⟨[exSite].filter fun d => ¬ (["Ebay"] : List String).contains d.name,
        [], []⟩ :=
  ⟨by decide, by decide,
    (C2_distrust_cache_three_states defaultOpts exFetchErr "rnd"
      [exSite]).2.2.1 ["Ebay"] (by decide) (by decide) (by decide)⟩

/-- C7: a feed that cannot be obtained or parsed puts the module in the
error state, and in the error state every received event returns at once:
no state change, no emitted event, no cache write, no probe of any
kind. -/
theorem C7_error_state_short_circuits (senv : SetupEnv) (env : HEEnv)
    (st : ModState) (ev : Event) :
    (feedContent senv = none → (setup senv).errorState = true) ∧
    (∀ c, feedContent senv = some c → senv.parseFeed c = none →
      (setup senv).errorState = true) ∧
    (st.errorState = true → handleEvent env st ev = ⟨st, [], [], [], []⟩) := by
  refine ⟨?_, ?_, ?_⟩
  · intro h
    simp only [setup, h]
  · intro c hc hp
    simp only [setup, hc, hp]
  · intro h
    unfold handleEvent
    rw [if_pos h]

/-- Witness for C7: an unobtainable feed, and an event received in the
error state. -/
theorem C7_error_state_short_circuits_witness :
    feedContent exSetupEnvNoFeed = none ∧
    (setup exSetupEnvNoFeed).errorState = true ∧
    exStateErr.errorState = true ∧
    handleEvent exEnv exStateErr exEventUser = ⟨exStateErr, [], [], [], []⟩ :=
  ⟨rfl,
    (C7_error_state_short_circuits exSetupEnvNoFeed exEnv exStateErr
      exEventUser).1 rfl,
    rfl,
    (C7_error_state_short_circuits exSetupEnvNoFeed exEnv exStateErr
      exEventUser).2.2 rfl⟩

/-- C9: calibration is idempotent — once the distrust block has run (flag
set) or a truthy distrust cache exists, an event triggers no calibration
round; and after a call that did calibrate, any further call runs none. -/
theorem C9_calibration_idempotent (env envB : HEEnv) (st : ModState)
    (ev evB : Event) :
    (st.distrustedChecked = true → (handleEvent env st ev).calibScans = []) ∧
    ((handleEvent env st ev).calibScans ≠ [] →
      (handleEvent env st ev).state.distrustedChecked = true) ∧
    (∀ c, env.stateCache = some c → c ≠ "" →
      (handleEvent env st ev).calibScans = []) ∧
    ((handleEvent env st ev).calibScans ≠ [] →
      (handleEvent envB (handleEvent env st ev).state evB).calibScans = []) := by
  have hmaster := handleEvent_calib_master env st ev
  refine ⟨fun h => handleEvent_calib_of_checked env st ev h, ?_, ?_, ?_⟩
  · intro hne
    rcases hmaster with hnil | ⟨_, _, hdone⟩
    · exact absurd hnil hne
    · exact hdone
  · intro c hc hcne
    rcases hmaster with hnil | ⟨_, heq, _⟩
    · exact hnil
    · rw [heq, hc]
      exact distrustStep_cached_no_calib env.opts env.fetch c env.randuser
        st.sites hcne
  · intro hne
    rcases hmaster with hnil | ⟨_, _, hdone⟩
    · exact absurd hnil hne
    · exact handleEvent_calib_of_checked envB _ evB hdone

/-- Witness for C9: a first call calibrates, the second call does not. -/
theorem C9_calibration_idempotent_witness :
    exStateChecked.distrustedChecked = true ∧
    (handleEvent exEnv exStateChecked exEventUser).calibScans = [] ∧
    (handleEvent exEnv exState exEventUser).calibScans ≠ [] ∧
    (handleEvent exEnvCached
      (handleEvent exEnv exState exEventUser).state exEventUser).calibScans =
      [] :=
  ⟨rfl,
    (C9_calibration_idempotent exEnv exEnvCached exStateChecked exEventUser
      exEventUser).1 rfl,
    by decide,
    (C9_calibration_idempotent exEnv exEnvCached exState exEventUser
      exEventUser).2.2.2 (by decide)⟩

end SfpAccounts
